import Mathlib

/-
  Verification development for the solana-rpc client (src/index.js, src/test.js).

  The development shallowly embeds:
  - the HTTP request transport `SolanaRPC.api` with its retry loop, error
    classification and endpoint rotation (`SolanaRPC._url`),
  - the batch helper `SolanaRPC.getBlocks`,
  - the subscription registry (`SolanaRPC.onAccountChange` /
    `SolanaRPC.accountUnsubscribe`) together with the socket's message
    listener list,
  - the ordered prefetching `BlockStream` (`_openp`, `_readp`,
    `_maybePrefetch`, `_getBlockWithCache`) with its live-wait loop and
    inflight cache.

  Network effects are modelled by oracles: a response oracle for the
  transport (one simulated outcome per attempt), a fetch oracle assigning
  each slot the value its block-fetch promise settles with, and a tip
  oracle enumerating successive `getSlot` results.  JavaScript strings are
  modelled as `List Char`; `String.prototype.includes` is embedded as
  `strIncludes` and decimal number-to-string conversion as `natChars`.
-/

namespace SolanaRpc

/-! ### Strings: JS `includes` and decimal rendering of numbers -/

/-- Embedding of a prefix test on character lists (`isPref p l` holds when
`p` is a prefix of `l`); used to embed `String.prototype.includes`. -/
def isPref : List Char → List Char → Bool
  | [], _ => true
  | _ :: _, [] => false
  | a :: as, b :: bs => a == b && isPref as bs

/-- Embedding of JavaScript `hay.includes(pat)`: `pat` occurs contiguously
inside `hay`. -/
def strIncludes : List Char → List Char → Bool
  | [], pat => isPref pat []
  | c :: t, pat => isPref pat (c :: t) || strIncludes t pat

/-- Decimal digit characters, in order. -/
def DIGCHARS : List Char := "0123456789".toList

/-- Character for one decimal digit (JS number rendering uses base 10). -/
def digitChar10 (m : Nat) : Char :=
  if m = 0 then '0' else if m = 1 then '1' else if m = 2 then '2'
  else if m = 3 then '3' else if m = 4 then '4' else if m = 5 then '5'
  else if m = 6 then '6' else if m = 7 then '7' else if m = 8 then '8' else '9'

/-- Fuelled accumulator for decimal rendering of a natural number. -/
def natDigitsAux : Nat → Nat → List Char → List Char
  | 0, _, acc => acc
  | fuel + 1, n, acc =>
    let d := digitChar10 (n % 10)
    if n / 10 = 0 then d :: acc else natDigitsAux fuel (n / 10) (d :: acc)

/-- Embedding of JavaScript number-to-string conversion (decimal). -/
def natChars (n : Nat) : List Char := natDigitsAux (n + 1) n []

theorem isPref_mem {p l : List Char} (h : isPref p l = true) :
    ∀ c ∈ p, c ∈ l := by
  induction p generalizing l with
  | nil => intro c hc; cases hc
  | cons a as ih =>
    cases l with
    | nil => simp [isPref] at h
    | cons b bs =>
      simp only [isPref, Bool.and_eq_true, beq_iff_eq] at h
      intro c hc
      rcases List.mem_cons.mp hc with hc | hc
      · exact List.mem_cons.mpr (Or.inl (hc.trans h.1))
      · exact List.mem_cons.mpr (Or.inr (ih h.2 c hc))

theorem strIncludes_mem {hay pat : List Char} (h : strIncludes hay pat = true) :
    ∀ c ∈ pat, c ∈ hay := by
  induction hay with
  | nil =>
    cases pat with
    | nil => intro c hc; cases hc
    | cons a as => simp [strIncludes, isPref] at h
  | cons b bs ih =>
    simp only [strIncludes, Bool.or_eq_true] at h
    rcases h with h | h
    · exact isPref_mem h
    · intro c hc; exact List.mem_cons.mpr (Or.inr (ih h c hc))

theorem digitChar10_mem (m : Nat) : digitChar10 m ∈ DIGCHARS := by
  unfold digitChar10
  repeat' split
  all_goals decide

theorem natDigitsAux_mem (fuel : Nat) :
    ∀ n acc c, c ∈ natDigitsAux fuel n acc → c ∈ acc ∨ c ∈ DIGCHARS := by
  induction fuel with
  | zero => intro n acc c hc; exact Or.inl hc
  | succ f ih =>
    intro n acc c hc
    simp only [natDigitsAux] at hc
    split at hc
    · rcases List.mem_cons.mp hc with hc | hc
      · exact Or.inr (hc ▸ digitChar10_mem _)
      · exact Or.inl hc
    · rcases ih _ _ _ hc with hc | hc
      · rcases List.mem_cons.mp hc with hc | hc
        · exact Or.inr (hc ▸ digitChar10_mem _)
        · exact Or.inl hc
      · exact Or.inr hc

theorem natChars_mem {n : Nat} {c : Char} (hc : c ∈ natChars n) : c ∈ DIGCHARS := by
  rcases natDigitsAux_mem _ _ _ _ hc with h | h
  · cases h
  · exact h

/-! ### Request transport: `SolanaRPC.api` and `SolanaRPC._url` -/

/-- One simulated outcome of a single attempt of the `api` loop: the fetch
may throw (timeout / connection error / bad JSON), the HTTP status may be
402, the JSON body may carry `data.error`, a flat top-level
`data.code`/`data.message` pair, or a successful result. -/
inductive Response where
  | network (msg : List Char)
  | http402
  | rpcError (code : Int) (msg : List Char) (data : Option (List Char))
  | flatError (code : Int) (msg : List Char)
  | success (result : Nat)
deriving Repr, DecidableEq

/-- An error value surfaced by `api`: the message, plus the `code` property
when the source assigns one (`error.code = data.error.code` branch). -/
structure RpcErr where
  msg : List Char
  code : Option Int
deriving Repr, DecidableEq

/-- Per-attempt control flow of the `api` loop body. -/
inductive Outcome where
  | ok (result : Nat)
  | retry (e : RpcErr)
  | fatal (e : RpcErr)
deriving Repr, DecidableEq

def paymentRequiredMsg : List Char := "Payment required".toList

def unknownErrorMsg : List Char := "Unknown error".toList

/-- Decoration of the `-32602` message with the attached diagnostic data:
`data.error.message + (data.error.data ? (': ' + data.error.data) : '')`.
An empty data string is falsy in JavaScript, so it does not decorate. -/
def decorate (d : Option (List Char)) : List Char :=
  match d with
  | some s => if s.isEmpty then [] else ": ".toList ++ s
  | none => []

/-- Classification performed by one iteration of the `api` loop body
(src/index.js lines 416-473), in source order: HTTP 402 is fatal;
`data.error` codes 429 and -32701 back off and retry, -32602 is fatal with
a decorated message, all other `data.error` codes are fatal carrying the
code; a flat `data.code`/`data.message` body retries on -32007 and is
fatal otherwise; a thrown fetch always backs off and retries. -/
def classify : Response → Outcome
  | .network m => .retry ⟨m, none⟩
  | .http402 => .fatal ⟨paymentRequiredMsg, none⟩
  | .rpcError c m d =>
    if c = 429 then .retry ⟨m, none⟩
    else if c = -32602 then .fatal ⟨m ++ decorate d, none⟩
    else if c = -32701 then .retry ⟨m, none⟩
    else .fatal ⟨m, some c⟩
  | .flatError c m =>
    if c = -32007 then .retry ⟨m, none⟩
    else .fatal ⟨m, some c⟩
  | .success r => .ok r

/-- Embedding of `SolanaRPC._url`: reads `urls[_urlIndex]`, increments the
cursor and wraps it to zero when it reaches `urls.length`.  `urlStep`
returns the new cursor; the used index is the old cursor. -/
def urlStep (nUrls i : Nat) : Nat :=
  if i + 1 ≥ nUrls then 0 else i + 1

/-- Result of one `api` call: the parsed result or the raised error, the
number of attempts performed, the endpoint indexes used (in order), and
the final rotator cursor. -/
structure ApiOut where
  result : Except RpcErr Nat
  attempts : Nat
  used : List Nat
  urlIndex : Nat
deriving Repr

/-- Modelled from the spec: the backoff driver (the `like-retry` dependency
is not part of this repository's sources).  Per spec section 4.1/4.2 the
policy runs the body up to `max` attempts; a retryable failure waits the
linear backoff delay and continues, and after exhausting attempts the
loop ends and the call surfaces the recorded error, or a generic unknown
error when none was recorded.  The loop body itself is translated from
src/index.js lines 415-474: the recorded error is only ever written
immediately before `break`, so a fatal classification surfaces at once. -/
def apiGo (nUrls : Nat) (responses : Nat → Response) :
    Nat → Nat → Nat → List Nat → ApiOut
  | 0, a, i, used => ⟨.error ⟨unknownErrorMsg, none⟩, a, used.reverse, i⟩
  | fuel + 1, a, i, used =>
    let i2 := urlStep nUrls i
    match classify (responses a) with
    | .ok r => ⟨.ok r, a + 1, (i :: used).reverse, i2⟩
    | .fatal e => ⟨.error e, a + 1, (i :: used).reverse, i2⟩
    | .retry _ => apiGo nUrls responses fuel (a + 1) i2 (i :: used)

/-- Embedding of `SolanaRPC.api` with `retry({ max: 3, ... })`: at most 3
attempts, starting from rotator cursor `i`. -/
def api (nUrls : Nat) (responses : Nat → Response) (i : Nat) : ApiOut :=
  apiGo nUrls responses 3 0 i []

/-- A sequence of `api` calls threading the rotator cursor; returns the
endpoint indexes used by each call. -/
def apiSeq (nUrls : Nat) (calls : List (Nat → Response)) (i : Nat) :
    List (List Nat) × Nat :=
  match calls with
  | [] => ([], i)
  | c :: rest =>
    let r := api nUrls c i
    let s := apiSeq nUrls rest r.urlIndex
    (r.used :: s.1, s.2)

/-- First fatal classification among the first `fuel` attempts, if any:
this is the error the source records before `break`. -/
def firstFatal (responses : Nat → Response) : Nat → Nat → Option RpcErr
  | _, 0 => none
  | a, fuel + 1 =>
    match classify (responses a) with
    | .fatal e => some e
    | _ => firstFatal responses (a + 1) fuel

/-! ### Facade helper: `SolanaRPC.getBlocks` -/

/-- Embedding of `SolanaRPC.getBlocks` (src/index.js lines 92-104) over an
abstract per-slot block value `getBlock`: when `start === end` it returns
a one-element array with `getBlock(start)`; otherwise it collects
`getBlock(i)` for `start <= i < end` in order. -/
def getBlocks (getBlock : Nat → Nat) (start endSlot : Nat) : List Nat :=
  if start = endSlot then [getBlock start]
  else (List.range' start (endSlot - start)).map getBlock

/-! ### Subscription registry: `onAccountChange` / `accountUnsubscribe` -/

/-- Identity of one `onMessage` closure created by `onAccountChange`: the
subscription id it filters on and the user callback it invokes. -/
structure CB where
  subId : Nat
  userCb : Nat
deriving Repr, DecidableEq

/-- State relevant to the subscription claims: the `_subscriptions` map
(insertion-ordered id/closure pairs), the socket's `message` listener
list, and the log of requests sent over the socket (method name together
with the subscription id parameter). -/
structure SubState where
  subs : List (Nat × CB)
  listeners : List CB
  sent : List (List Char × Nat)
deriving Repr, DecidableEq

/-- JavaScript `Map.prototype.get` on the association list. -/
def mapGet (l : List (Nat × CB)) (id : Nat) : Option CB :=
  match l.find? (fun p => p.1 == id) with
  | some p => some p.2
  | none => none

/-- JavaScript `Map.prototype.set`: replace in place, or append. -/
def mapSet (l : List (Nat × CB)) (id : Nat) (cb : CB) : List (Nat × CB) :=
  if l.any (fun p => p.1 == id) then
    l.map (fun p => if p.1 == id then (id, cb) else p)
  else l ++ [(id, cb)]

/-- JavaScript `Map.prototype.delete`: drop the entry with the key. -/
def mapDelete (l : List (Nat × CB)) (id : Nat) : List (Nat × CB) :=
  l.filter (fun p => p.1 != id)

/-- Node's `removeListener`: detach a single matching listener. -/
def removeListenerOnce (ls : List CB) (cb : CB) : List CB := ls.erase cb

/-- Embedding of the registry effects of `SolanaRPC.onAccountChange`
(src/index.js lines 340-360): after the subscribe acknowledgment returns
`id`, the created `onMessage` closure is attached as a socket `message`
listener and stored in `_subscriptions` under `id`.  The subscribe
request itself (whose parameters carry the address, not the id) is out of
scope; `sent` records only unsubscribe requests. -/
def onAccountChange (st : SubState) (id : Nat) (userCb : Nat) : SubState :=
  let cb : CB := ⟨id, userCb⟩
  { subs := mapSet st.subs id cb
    listeners := st.listeners ++ [cb]
    sent := st.sent }

/-- Embedding of `SolanaRPC.accountUnsubscribe` (src/index.js lines
362-374).  An unknown id throws `Subscription not found` before any
mutation, so the state is returned unchanged together with the error
message; otherwise the entry is deleted, the closure is detached from the
socket and the `accountUnsubscribe` request is sent. -/
def accountUnsubscribe (st : SubState) (id : Nat) :
    Option (List Char) × SubState :=
  match mapGet st.subs id with
  | none => (some ("Subscription not found: ".toList ++ natChars id), st)
  | some cb =>
    (none,
     { subs := mapDelete st.subs id
       listeners := removeListenerOnce st.listeners cb
       sent := st.sent ++ [("accountUnsubscribe".toList, id)] })

/-- An inbound socket frame, as seen by the attached listeners: either an
`accountNotification` for a subscription id carrying a result value, or
any other frame. -/
inductive WsMsg where
  | accountNote (subscription : Nat) (value : Nat)
  | other
deriving Repr, DecidableEq

/-- Delivery of one inbound frame to the listener list: each `onMessage`
closure fires its user callback exactly when the frame is an
`accountNotification` whose `params.subscription` equals its own id.
Returns the user callbacks invoked, in listener order. -/
def deliverTo (ls : List CB) (msg : WsMsg) : List Nat :=
  match msg with
  | .accountNote sub _ => (ls.filter (fun cb => cb.subId == sub)).map (fun cb => cb.userCb)
  | .other => []

/-! ### Ordered prefetch stream: `BlockStream` -/

/-- Outcome a slot's block-fetch promise settles with (the composition of
the `opts.getBlock` hook and `solana.getBlock`): a truthy block value, a
null/undefined block, or a rejection with an error message. -/
inductive FetchOutcome where
  | ok (payload : Nat)
  | nullBlock
  | fail (msg : List Char)
deriving Repr, DecidableEq

/-- Outcome of the `opts.getBlock` hook alone: resolution with a possibly
falsy value, or rejection. -/
inductive HookOutcome where
  | resolved (b : Option Nat)
  | failed (msg : List Char)
deriving Repr, DecidableEq

/-- The fetch performed by `_getBlockWithCache` (src/index.js line 611):
`this.getBlock(slot).then(block => block || this.solana.getBlock(slot))`
probes the hook first and falls through to the RPC fetch only when the
hook resolves falsy; a hook rejection propagates. -/
def fetchSlot (hook : Nat → HookOutcome) (rpc : Nat → FetchOutcome) (slot : Nat) :
    FetchOutcome :=
  match hook slot with
  | .resolved (some b) => .ok b
  | .resolved none => rpc slot
  | .failed m => .fail m

/-- Immutable per-stream configuration from the `BlockStream` constructor:
`live = !!opts.live`, `snapshot = !opts.live && opts.snapshot !== false`,
`concurrency = opts.prefetch || 20`. -/
structure StreamCfg where
  live : Bool
  snapshot : Bool
  concurrency : Nat
deriving Repr, DecidableEq

/-- Mutable `BlockStream` state: the read cursor `start`, the bound `end`
(`none` embeds the `-1` sentinel), the last-known tip `length`, the keys
of the `inflight` map in insertion order, and the cursor `q` into the
`getSlot` tip oracle. -/
structure StreamSt where
  start : Nat
  endv : Option Nat
  length : Nat
  inflight : List Nat
  q : Nat
deriving Repr, DecidableEq

/-- Constructor option processing for the configuration fields. -/
def mkCfg (liveOpt snapshotOpt : Bool) (prefetchOpt : Option Nat) : StreamCfg :=
  { live := liveOpt
    snapshot := !liveOpt && snapshotOpt
    concurrency :=
      match prefetchOpt with
      | none => 20
      | some 0 => 20
      | some (n + 1) => n + 1 }

/-- Constructor state: `start = opts.start || 0`, `end` from `opts.end`
(or the `-1` sentinel), `length = 0`, empty cache. -/
def mkSt (startOpt : Nat) (endOpt : Option Nat) : StreamSt :=
  { start := startOpt, endv := endOpt, length := 0, inflight := [], q := 0 }

/-- Embedding of `BlockStream._openp`: when no explicit end was given the
tip is queried once into `length`, and in snapshot mode that tip becomes
the fixed end. -/
def openp (tips : Nat → Nat) (cfg : StreamCfg) (s : StreamSt) : StreamSt :=
  let s1 :=
    match s.endv with
    | none => { s with length := tips s.q, q := s.q + 1 }
    | some _ => s
  match s1.endv with
  | none => if cfg.snapshot then { s1 with endv := some s1.length } else s1
  | some _ => s1

/-- The upper value `this.end === -1 ? this.length : this.end` used both by
`_maybePrefetch` and (in non-live mode) by the bound check. -/
def pullBound (s : StreamSt) : Nat :=
  match s.endv with
  | none => s.length
  | some e => e

/-- Cache insertion guarded by `inflight.has(slot)`. -/
def addIfMissing (inflight : List Nat) (slot : Nat) : List Nat :=
  if slot ∈ inflight then inflight else inflight ++ [slot]

/-- Embedding of `BlockStream._maybePrefetch` (src/index.js lines 582-596):
launches a fetch for each not-yet-cached slot from the cursor up to
`min(end-or-length, concurrency)` slots ahead.  The source's early return
compares `this.inflight.length` (undefined on a `Map`, whose size is
`size`) with 100; `undefined >= 100` is false, so the guard never fires
and is not modelled. -/
def maybePrefetch (cfg : StreamCfg) (s : StreamSt) : StreamSt :=
  let m := min (pullBound s) cfg.concurrency
  { s with inflight := (List.range' s.start m).foldl addIfMissing s.inflight }

/-- Cache effect of awaiting `_getBlockWithCache(slot)` from `_readp`
(src/index.js lines 598-621): a cached entry is removed (shifted) from
the map; a missing entry is fetched and saved, and the saved entry is
never removed afterwards. -/
def consumeCache (s : StreamSt) (slot : Nat) : StreamSt :=
  if slot ∈ s.inflight then { s with inflight := s.inflight.erase slot }
  else { s with inflight := s.inflight ++ [slot] }

/-- The sentinel substring tested by the catch in `_readp`. -/
def SKIP_MSG : List Char :=
  "was skipped, or missing due to ledger jump to recent snapshot".toList

/-- The message of the error thrown for a falsy block. -/
def notAvailableMsg (slot : Nat) : List Char :=
  "Block not available: ".toList ++ natChars slot

/-- A block record as yielded by the stream; `_readp` overwrites `slot`
with the consumed slot number. -/
structure Block where
  slot : Nat
  payload : Nat
deriving Repr, DecidableEq

/-- Result of one `_readp` pull: the `-1` end marker, a block, the
`Symbol.for('solana-block-missing')` sentinel, a thrown error, or fuel
exhaustion of the modelled live-wait loop (a modelling artifact for a
wait that has not yet finished). -/
inductive ReadOut where
  | ended
  | blk (b : Block)
  | missingMark
  | raise (msg : List Char)
  | fuelOut
deriving Repr, DecidableEq

/-- Value computed by the try/catch around the consumed slot: a truthy
block is yielded with its `slot` field set; a falsy block raises
`Block not available`; the catch converts any error whose message
includes the skip sentinel into the missing marker and rethrows others. -/
def consumeResult (fetchOracle : Nat → FetchOutcome) (slot : Nat) : ReadOut :=
  match fetchOracle slot with
  | .ok p => .blk ⟨slot, p⟩
  | .nullBlock =>
    if strIncludes (notAvailableMsg slot) SKIP_MSG then .missingMark
    else .raise (notAvailableMsg slot)
  | .fail m => if strIncludes m SKIP_MSG then .missingMark else .raise m

/-- One event of the live-wait loop: a `getSlot` query with its result, or
the 500 ms sleep taken when the fresh tip equals the cursor. -/
inductive LWEvent where
  | query (result : Nat)
  | sleep500
deriving Repr, DecidableEq

/-- Embedding of the live-wait loop at the top of `_readp` (src/index.js
lines 537-548): while the cursor exceeds the last-known tip, query the
tip; when the query equals the cursor, sleep 500 ms and re-check without
adopting it; otherwise adopt the queried value as the new tip.  Returns
the event trace and, within fuel, the final `length` and tip-oracle
cursor. -/
def liveWaitT (tips : Nat → Nat) :
    Nat → Nat → Nat → Nat → List LWEvent × Option (Nat × Nat)
  | 0, start, length, q =>
    if start ≤ length then ([], some (length, q)) else ([], none)
  | f + 1, start, length, q =>
    if start ≤ length then ([], some (length, q))
    else
      let t := tips q
      if start = t then
        let r := liveWaitT tips f start length (q + 1)
        (.query t :: .sleep500 :: r.1, r.2)
      else
        let r := liveWaitT tips f start t (q + 1)
        (.query t :: r.1, r.2)

/-- The bound used by the termination check of `_readp`:
`this.live ? -1 : (this.end === -1 ? this.length : this.end)`. -/
def effEnd (cfg : StreamCfg) (s : StreamSt) : Option Nat :=
  if cfg.live then none else some (pullBound s)

/-- The consuming tail of `_readp`: replenish the prefetch window, advance
the cursor, take the cursor slot's cache entry and classify its value. -/
def readpConsume (cfg : StreamCfg) (fetchOracle : Nat → FetchOutcome)
    (s : StreamSt) : ReadOut × StreamSt :=
  let s1 := maybePrefetch cfg s
  let slot := s1.start
  let s2 := { s1 with start := slot + 1 }
  (consumeResult fetchOracle slot, consumeCache s2 slot)

/-- Bound check followed by consumption (the non-waiting part of
`_readp`). -/
def readpCore (cfg : StreamCfg) (fetchOracle : Nat → FetchOutcome)
    (s : StreamSt) : ReadOut × StreamSt :=
  match effEnd cfg s with
  | some e => if s.start ≥ e then (.ended, s) else readpConsume cfg fetchOracle s
  | none => readpConsume cfg fetchOracle s

/-- Embedding of `BlockStream._readp` (src/index.js lines 536-580): the
live wait (live mode only), the bound check, window replenishment and
consumption of the cursor slot. -/
def readp (cfg : StreamCfg) (fetchOracle : Nat → FetchOutcome)
    (tips : Nat → Nat) (lwFuel : Nat) (s : StreamSt) : ReadOut × StreamSt :=
  if cfg.live then
    match (liveWaitT tips lwFuel s.start s.length s.q).2 with
    | none => (.fuelOut, s)
    | some (len, q) => readpCore cfg fetchOracle { s with length := len, q := q }
  else readpCore cfg fetchOracle s

/-- Iterated `_maybePrefetch`: completion callbacks of settled fetch
promises re-trigger replenishment at arbitrary points between pulls. -/
def applyPrefetchN : Nat → StreamCfg → StreamSt → StreamSt
  | 0, _, s => s
  | n + 1, cfg, s => applyPrefetchN n cfg (maybePrefetch cfg s)

/-- A value yielded by the stream iterator. -/
inductive Item where
  | blk (b : Block)
  | missingMark
deriving Repr, DecidableEq

/-- How an iteration of the stream finished. -/
inductive StreamOutcome where
  | clean
  | raised (msg : List Char)
  | fuelOut
deriving Repr, DecidableEq

/-- Embedding of the `_stream` loop (src/index.js lines 512-524) driven
for at most `fuel` pulls.  Before each pull the completion callbacks of
previously settled fetches may re-trigger `_maybePrefetch`; the schedule
`sched` lists how many such callbacks run before each pull, so the yielded
sequence can be checked against every completion order. -/
def streamOut (cfg : StreamCfg) (fetchOracle : Nat → FetchOutcome)
    (tips : Nat → Nat) (lwFuel : Nat) :
    Nat → List Nat → StreamSt → List Item × StreamOutcome
  | 0, _, _ => ([], .fuelOut)
  | fuel + 1, sched, s =>
    let s0 := applyPrefetchN (sched.headD 0) cfg s
    match readp cfg fetchOracle tips lwFuel s0 with
    | (.ended, _) => ([], .clean)
    | (.blk b, s1) =>
      let r := streamOut cfg fetchOracle tips lwFuel fuel sched.tail s1
      (.blk b :: r.1, r.2)
    | (.missingMark, s1) =>
      let r := streamOut cfg fetchOracle tips lwFuel fuel sched.tail s1
      (.missingMark :: r.1, r.2)
    | (.raise m, _) => ([], .raised m)
    | (.fuelOut, _) => ([], .fuelOut)

/-- Interleaving tags for observing the cache: a completion-triggered
replenishment, or one pull of `_readp`. -/
inductive STag where
  | pf
  | pull
deriving Repr, DecidableEq

/-- Runs a sequence of interleaved replenishments and pulls, returning the
final state; every prefix of a tag list is itself a tag list, so the
invariants proved over `runTags` hold at every observation point. -/
def runTags (cfg : StreamCfg) (fetchOracle : Nat → FetchOutcome)
    (tips : Nat → Nat) (lwFuel : Nat) : List STag → StreamSt → StreamSt
  | [], s => s
  | .pf :: ts, s => runTags cfg fetchOracle tips lwFuel ts (maybePrefetch cfg s)
  | .pull :: ts, s =>
    runTags cfg fetchOracle tips lwFuel ts (readp cfg fetchOracle tips lwFuel s).2

/-- Cache well-formedness: no duplicate keys, and every cached slot lies in
the window `[start, start + W)`. -/
def GoodCache (w : Nat) (s : StreamSt) : Prop :=
  s.inflight.Nodup ∧ ∀ x ∈ s.inflight, s.start ≤ x ∧ x < s.start + w

/-- Condition under which one pull keeps the cache well-formed: whenever
the pull reaches consumption, the prefetch limit is positive (so the
cursor slot is cached before it is consumed).  Non-live pulls satisfy
this automatically. -/
def pullOkAt (cfg : StreamCfg) (tips : Nat → Nat) (lwFuel : Nat)
    (s : StreamSt) : Bool :=
  if cfg.live then
    match (liveWaitT tips lwFuel s.start s.length s.q).2 with
    | none => true
    | some (len, _) =>
      decide (1 ≤ min (pullBound { s with length := len }) cfg.concurrency)
  else true

/-- The pull condition checked along a whole interleaving. -/
def pullsOk (cfg : StreamCfg) (fetchOracle : Nat → FetchOutcome)
    (tips : Nat → Nat) (lwFuel : Nat) : List STag → StreamSt → Bool
  | [], _ => true
  | .pf :: ts, s => pullsOk cfg fetchOracle tips lwFuel ts (maybePrefetch cfg s)
  | .pull :: ts, s =>
    pullOkAt cfg tips lwFuel s &&
    pullsOk cfg fetchOracle tips lwFuel ts (readp cfg fetchOracle tips lwFuel s).2

/-! ### Concrete oracles used by witnesses and counterexamples -/

/-- A response oracle that always succeeds. -/
def succResp : Nat → Response := fun _ => .success 0

/-- A response oracle that always fails at the transport level. -/
def netResp : Nat → Response := fun _ => .network ("boom".toList)

/-- A response oracle that always returns the flat -32007 error body. -/
def flat32007 : Nat → Response := fun _ => .flatError (-32007) ("test".toList)

/-- A response oracle that always returns a `data.error` with code 5. -/
def rc5Resp : Nat → Response := fun _ => .rpcError 5 ("e".toList) none

/-! ### C10: `getBlocks` endpoints -/

/-- C10: for every slot `s`, `getBlocks(s, s)` returns the one-element
array `[getBlock(s)]` even though `end` is exclusive, and for `s < e`,
`getBlocks(s, e)` returns the `e - s` blocks for slots `s .. e-1` in
order. -/
theorem claim_C10 (f : Nat → Nat) (s e : Nat) (h : s < e) :
    getBlocks f s s = [f s] ∧
    getBlocks f s e = (List.range' s (e - s)).map f ∧
    (getBlocks f s e).length = e - s ∧
    ∀ i, i < e - s → (getBlocks f s e)[i]? = some (f (s + i)) := by
  have hne : s ≠ e := Nat.ne_of_lt h
  refine ⟨by simp [getBlocks], by simp [getBlocks, hne], ?_, ?_⟩
  · simp [getBlocks, hne]
  · intro i hi
    simp [getBlocks, hne, List.getElem?_map, List.getElem?_range', hi]

/-- Witness for C10 at `s = 7`, `e = 9`. -/
theorem claim_C10_witness :
    getBlocks (fun n => n * n) 7 7 = [49] ∧
    getBlocks (fun n => n * n) 7 9 = (List.range' 7 2).map (fun n => n * n) ∧
    (getBlocks (fun n => n * n) 7 9).length = 2 ∧
    ∀ i, i < 2 → (getBlocks (fun n => n * n) 7 9)[i]? = some ((7 + i) * (7 + i)) :=
  claim_C10 (fun n => n * n) 7 9 (by decide)

/-! ### C5: endpoint rotation -/

/-- C5: an instance with 2 endpoint URLs serves 4 sequential single-attempt
requests with endpoint indexes `[0, 1, 0, 1]`, and each call to the
rotator keeps the cursor inside `[0, number of URLs)` while advancing by
one and wrapping to zero. -/
theorem claim_C5 (n i : Nat) (hn : 0 < n) (hi : i < n) :
    (apiSeq 2 [succResp, succResp, succResp, succResp] 0).1 = [[0], [1], [0], [1]] ∧
    urlStep n i < n ∧ urlStep n i = (i + 1) % n := by
  refine ⟨rfl, ?_, ?_⟩
  · unfold urlStep
    split
    · exact hn
    · omega
  · unfold urlStep
    split
    · have he : i + 1 = n := by omega
      rw [he, Nat.mod_self]
    · rw [Nat.mod_eq_of_lt (by omega)]

/-- Witness for C5 with 2 URLs and cursor 1. -/
theorem claim_C5_witness :
    (apiSeq 2 [succResp, succResp, succResp, succResp] 0).1 = [[0], [1], [0], [1]] ∧
    urlStep 2 1 < 2 ∧ urlStep 2 1 = (1 + 1) % 2 :=
  claim_C5 2 1 (by decide) (by decide)

/-! ### C4: error classification of the transport -/

/-- Counterexample to C4 as stated: a remote structured error with code
-32007 delivered as a flat top-level body (no `data.error` envelope) is
not fatal immediately; the call backs off and retries until the 3
attempts are exhausted. -/
theorem claim_C4_counterexample :
    classify (.flatError (-32007) ("test".toList)) = .retry ⟨"test".toList, none⟩ ∧
    (api 1 flat32007 0).attempts = 3 ∧
    (api 1 flat32007 0).result = .error ⟨unknownErrorMsg, none⟩ :=
  ⟨rfl, rfl, rfl⟩

/-- C4 as amended: within one `api` call, HTTP 402 is fatal immediately
with `Payment required`; a `data.error` with code 429 or -32701 is
retried with backoff; code -32602 is fatal immediately with the message
decorated by the attached diagnostic data; every other `data.error` code
is fatal immediately without retry; a flat `data.code`/`data.message`
body is retried on code -32007 and fatal otherwise; and a transport-level
failure is always retried. -/
theorem claim_C4_amended (m : List Char) (d : Option (List Char)) (c : Int)
    (nUrls i : Nat) (resp : Nat → Response)
    (hc1 : c ≠ 429) (hc2 : c ≠ -32602) (hc3 : c ≠ -32701) (hc4 : c ≠ -32007)
    (hresp : resp 0 = .rpcError c m d) :
    classify .http402 = .fatal ⟨paymentRequiredMsg, none⟩ ∧
    (api nUrls (fun _ => .http402) i).attempts = 1 ∧
    (api nUrls (fun _ => .http402) i).result = .error ⟨paymentRequiredMsg, none⟩ ∧
    classify (.rpcError 429 m d) = .retry ⟨m, none⟩ ∧
    classify (.rpcError (-32701) m d) = .retry ⟨m, none⟩ ∧
    classify (.rpcError (-32602) m d) = .fatal ⟨m ++ decorate d, none⟩ ∧
    classify (.rpcError c m d) = .fatal ⟨m, some c⟩ ∧
    classify (.network m) = .retry ⟨m, none⟩ ∧
    classify (.flatError (-32007) m) = .retry ⟨m, none⟩ ∧
    classify (.flatError c m) = .fatal ⟨m, some c⟩ ∧
    (api nUrls resp i).attempts = 1 ∧
    (api nUrls resp i).result = .error ⟨m, some c⟩ := by
  have hcl : classify (.rpcError c m d) = .fatal ⟨m, some c⟩ := by
    simp [classify, hc1, hc2, hc3]
  refine ⟨rfl, rfl, rfl, by norm_num [classify], by norm_num [classify],
    by norm_num [classify], hcl, rfl, by norm_num [classify], ?_, ?_, ?_⟩
  · simp [classify, hc4]
  · simp [api, apiGo, hresp, hcl]
  · simp [api, apiGo, hresp, hcl]

/-- Witness for C4 (amended) at code 5. -/
theorem claim_C4_witness :
    classify .http402 = .fatal ⟨paymentRequiredMsg, none⟩ ∧
    (api 2 (fun _ => .http402) 0).attempts = 1 ∧
    (api 2 (fun _ => .http402) 0).result = .error ⟨paymentRequiredMsg, none⟩ ∧
    classify (.rpcError 429 ("e".toList) none) = .retry ⟨"e".toList, none⟩ ∧
    classify (.rpcError (-32701) ("e".toList) none) = .retry ⟨"e".toList, none⟩ ∧
    classify (.rpcError (-32602) ("e".toList) none) = .fatal ⟨"e".toList ++ decorate none, none⟩ ∧
    classify (.rpcError 5 ("e".toList) none) = .fatal ⟨"e".toList, some 5⟩ ∧
    classify (.network ("e".toList)) = .retry ⟨"e".toList, none⟩ ∧
    classify (.flatError (-32007) ("e".toList)) = .retry ⟨"e".toList, none⟩ ∧
    classify (.flatError 5 ("e".toList)) = .fatal ⟨"e".toList, some 5⟩ ∧
    (api 2 rc5Resp 0).attempts = 1 ∧
    (api 2 rc5Resp 0).result = .error ⟨"e".toList, some 5⟩ :=
  claim_C4_amended ("e".toList) none 5 2 0 rc5Resp
    (by decide) (by decide) (by decide) (by decide) rfl

/-! ### C3: retry exhaustion -/

/-- C3: when every attempt of the `api` loop fails, the call performs at
most 3 attempts and raises the recorded (first and only, since recording
breaks the loop) fatal error, or the generic unknown error when every
attempt was retried away without a terminal classification.  The backoff
driver is modelled from the spec since the `like-retry` dependency is not
part of this repository. -/
theorem claim_C3 (nUrls : Nat) (responses : Nat → Response) (i : Nat)
    (h : ∀ a r, classify (responses a) ≠ .ok r) :
    (api nUrls responses i).attempts ≤ 3 ∧
    (api nUrls responses i).result =
      .error ((firstFatal responses 0 3).getD ⟨unknownErrorMsg, none⟩) := by
  unfold api
  rcases h0 : classify (responses 0) with r | e0 | e0
  · exact absurd h0 (h 0 r)
  · rcases h1 : classify (responses 1) with r | e1 | e1
    · exact absurd h1 (h 1 r)
    · rcases h2 : classify (responses 2) with r | e2 | e2
      · exact absurd h2 (h 2 r)
      · exact ⟨by simp [apiGo, h0, h1, h2], by simp [apiGo, firstFatal, h0, h1, h2]⟩
      · exact ⟨by simp [apiGo, h0, h1, h2], by simp [apiGo, firstFatal, h0, h1, h2]⟩
    · exact ⟨by simp [apiGo, h0, h1], by simp [apiGo, firstFatal, h0, h1]⟩
  · exact ⟨by simp [apiGo, h0], by simp [apiGo, firstFatal, h0]⟩

/-- Witness for C3: all attempts fail at the transport level, so the call
stops after 3 attempts with the generic unknown error. -/
theorem claim_C3_witness :
    (api 1 netResp 0).attempts ≤ 3 ∧
    (api 1 netResp 0).result =
      .error ((firstFatal netResp 0 3).getD ⟨unknownErrorMsg, none⟩) :=
  claim_C3 1 netResp 0 (fun a r hc => by simp [netResp, classify] at hc)

/-! ### Projection lemmas for the stream state transformers -/

theorem maybePrefetch_start (cfg : StreamCfg) (s : StreamSt) :
    (maybePrefetch cfg s).start = s.start := rfl

theorem maybePrefetch_endv (cfg : StreamCfg) (s : StreamSt) :
    (maybePrefetch cfg s).endv = s.endv := rfl

theorem maybePrefetch_length (cfg : StreamCfg) (s : StreamSt) :
    (maybePrefetch cfg s).length = s.length := rfl

theorem consumeCache_start (s : StreamSt) (slot : Nat) :
    (consumeCache s slot).start = s.start := by
  unfold consumeCache; split <;> rfl

theorem consumeCache_endv (s : StreamSt) (slot : Nat) :
    (consumeCache s slot).endv = s.endv := by
  unfold consumeCache; split <;> rfl

theorem applyPrefetchN_start (n : Nat) (cfg : StreamCfg) (s : StreamSt) :
    (applyPrefetchN n cfg s).start = s.start := by
  induction n generalizing s with
  | zero => rfl
  | succ k ih => rw [applyPrefetchN, ih, maybePrefetch_start]

theorem applyPrefetchN_endv (n : Nat) (cfg : StreamCfg) (s : StreamSt) :
    (applyPrefetchN n cfg s).endv = s.endv := by
  induction n generalizing s with
  | zero => rfl
  | succ k ih => rw [applyPrefetchN, ih, maybePrefetch_endv]

theorem readpConsume_fst (cfg : StreamCfg) (fo : Nat → FetchOutcome) (s : StreamSt) :
    (readpConsume cfg fo s).1 = consumeResult fo s.start := rfl

theorem readpConsume_start (cfg : StreamCfg) (fo : Nat → FetchOutcome) (s : StreamSt) :
    (readpConsume cfg fo s).2.start = s.start + 1 := by
  simp only [readpConsume, consumeCache_start, maybePrefetch_start]

theorem readpConsume_endv (cfg : StreamCfg) (fo : Nat → FetchOutcome) (s : StreamSt) :
    (readpConsume cfg fo s).2.endv = s.endv := by
  simp only [readpConsume, consumeCache_endv, maybePrefetch_endv]

theorem readp_nonlive (cfg : StreamCfg) (h : cfg.live = false)
    (fo : Nat → FetchOutcome) (tips : Nat → Nat) (lw : Nat) (s : StreamSt) :
    readp cfg fo tips lw s = readpCore cfg fo s := by
  simp [readp, h]

theorem readpCore_ended (cfg : StreamCfg) (h : cfg.live = false)
    (fo : Nat → FetchOutcome) (s : StreamSt) (he : pullBound s ≤ s.start) :
    readpCore cfg fo s = (.ended, s) := by
  simp [readpCore, effEnd, h, he]

theorem readpCore_consume (cfg : StreamCfg) (h : cfg.live = false)
    (fo : Nat → FetchOutcome) (s : StreamSt) (hlt : s.start < pullBound s) :
    readpCore cfg fo s = readpConsume cfg fo s := by
  simp only [readpCore, effEnd, h, Bool.false_eq_true, if_false]
  rw [if_neg (by omega)]

/-! ### C6: live-wait behaviour -/

/-- A tip oracle that is stuck at 5. -/
def tips5 : Nat → Nat := fun _ => 5

/-- A tip oracle that always answers 9. -/
def tips9 : Nat → Nat := fun _ => 9

/-- A tip oracle that always answers 0. -/
def tips0 : Nat → Nat := fun _ => 0

/-- Counterexample to C6 as stated: with cursor 7 and last-known tip 5, a
`getSlot` poll returning 5 again (tip unchanged across two consecutive
polls) is followed immediately by another poll, with no 500 ms sleep in
between — the loop busy-polls whenever the fresh tip differs from the
cursor, and sleeps only when the fresh tip equals the cursor. -/
theorem claim_C6_counterexample :
    (liveWaitT tips5 2 7 5 0).1 = [.query 5, .query 5] ∧
    LWEvent.sleep500 ∉ (liveWaitT tips5 2 7 5 0).1 ∧
    (liveWaitT tips5 2 7 5 0).2 = none := by decide

/-- C6 as amended: in live mode a pull re-queries the tip exactly when the
cursor strictly exceeds the last-known tip (when the cursor has merely
caught up to the tip it emits without re-querying); when the freshly
queried tip equals the cursor the loop sleeps 500 ms and re-checks
without adopting it; any other queried value is adopted as the new tip —
when it exceeds the cursor the wait ends at once and emission resumes,
and when it is below the cursor the loop re-queries immediately without
sleeping. -/
theorem claim_C6_amended (tips : Nat → Nat) (f start length q : Nat) :
    (start ≤ length → ∀ f2, liveWaitT tips f2 start length q = ([], some (length, q))) ∧
    (length < start →
      (liveWaitT tips (f + 1) start length q).1.head? = some (.query (tips q)) ∧
      (tips q = start →
        liveWaitT tips (f + 1) start length q =
          (.query (tips q) :: .sleep500 :: (liveWaitT tips f start length (q + 1)).1,
           (liveWaitT tips f start length (q + 1)).2)) ∧
      (start < tips q →
        liveWaitT tips (f + 1) start length q = ([.query (tips q)], some (tips q, q + 1))) ∧
      (tips q < start →
        liveWaitT tips (f + 1) start length q =
          (.query (tips q) :: (liveWaitT tips f start (tips q) (q + 1)).1,
           (liveWaitT tips f start (tips q) (q + 1)).2))) := by
  constructor
  · intro h f2
    cases f2 <;> simp [liveWaitT, h]
  · intro hgt
    have hnle : ¬ start ≤ length := by omega
    refine ⟨?_, ?_, ?_, ?_⟩
    · simp only [liveWaitT, if_neg hnle]
      split <;> rfl
    · intro heq
      simp only [liveWaitT, if_neg hnle]
      rw [if_pos heq.symm]
    · intro hlt
      have hne : start ≠ tips q := by omega
      have hr : liveWaitT tips f start (tips q) (q + 1) = ([], some (tips q, q + 1)) := by
        cases f <;> simp [liveWaitT, Nat.le_of_lt hlt]
      simp only [liveWaitT, if_neg hnle]
      rw [if_neg hne, hr]
    · intro hlt
      have hne : start ≠ tips q := by omega
      simp only [liveWaitT, if_neg hnle]
      rw [if_neg hne]

/-- Witness for C6 (amended): cursor 7, tip 5, the poll answers 9, so the
wait ends after a single query adopting the new tip. -/
theorem claim_C6_witness :
    liveWaitT tips9 2 7 5 0 = ([LWEvent.query 9], some (9, 1)) :=
  ((claim_C6_amended tips9 1 7 5 0).2 (by decide)).2.2.1 (by decide)

/-! ### C1: bounded stream yields every slot in order -/

theorem streamOut_bounded (cfg : StreamCfg) (hlive : cfg.live = false)
    (fo : Nat → FetchOutcome) (tips : Nat → Nat) (lw : Nat) (b : Nat) (p : Nat → Nat) :
    ∀ (n : Nat) (s : StreamSt) (sched : List Nat),
      s.endv = some b → b = s.start + n →
      (∀ x, s.start ≤ x → x < b → fo x = .ok (p x)) →
      streamOut cfg fo tips lw (n + 1) sched s =
        ((List.range' s.start n).map (fun x => Item.blk ⟨x, p x⟩), .clean) := by
  intro n
  induction n with
  | zero =>
    intro s sched he hb _
    have h0s : (applyPrefetchN (sched.headD 0) cfg s).start = s.start :=
      applyPrefetchN_start _ _ _
    have h0e : (applyPrefetchN (sched.headD 0) cfg s).endv = s.endv :=
      applyPrefetchN_endv _ _ _
    have hend : pullBound (applyPrefetchN (sched.headD 0) cfg s) ≤
        (applyPrefetchN (sched.headD 0) cfg s).start := by
      simp only [pullBound, h0e, he, h0s]
      omega
    have hr : readp cfg fo tips lw (applyPrefetchN (sched.headD 0) cfg s) =
        (.ended, applyPrefetchN (sched.headD 0) cfg s) := by
      rw [readp_nonlive cfg hlive, readpCore_ended cfg hlive fo _ hend]
    rw [streamOut, hr]
    simp
  | succ k ih =>
    intro s sched he hb hfo
    have h0s : (applyPrefetchN (sched.headD 0) cfg s).start = s.start :=
      applyPrefetchN_start _ _ _
    have h0e : (applyPrefetchN (sched.headD 0) cfg s).endv = s.endv :=
      applyPrefetchN_endv _ _ _
    have hlt : (applyPrefetchN (sched.headD 0) cfg s).start <
        pullBound (applyPrefetchN (sched.headD 0) cfg s) := by
      simp only [pullBound, h0e, he, h0s]
      omega
    rcases hrc : readpConsume cfg fo (applyPrefetchN (sched.headD 0) cfg s) with ⟨ro, s1⟩
    have hro : ro = ReadOut.blk ⟨s.start, p s.start⟩ := by
      have h := readpConsume_fst cfg fo (applyPrefetchN (sched.headD 0) cfg s)
      rw [hrc, h0s] at h
      simpa [consumeResult, hfo s.start le_rfl (by omega)] using h
    have h1s : s1.start = s.start + 1 := by
      have h := readpConsume_start cfg fo (applyPrefetchN (sched.headD 0) cfg s)
      rw [hrc, h0s] at h
      exact h
    have h1e : s1.endv = some b := by
      have h := readpConsume_endv cfg fo (applyPrefetchN (sched.headD 0) cfg s)
      rw [hrc, h0e, he] at h
      exact h
    have hr : readp cfg fo tips lw (applyPrefetchN (sched.headD 0) cfg s) =
        (ReadOut.blk ⟨s.start, p s.start⟩, s1) := by
      rw [readp_nonlive cfg hlive, readpCore_consume cfg hlive fo _ hlt, hrc, hro]
    have ihr := ih s1 sched.tail h1e (by omega)
      (fun x hx1 hx2 => hfo x (by omega) hx2)
    rw [h1s] at ihr
    rw [streamOut, hr]
    simp only [ihr]
    rw [List.range'_succ]
    simp

/-- C1: a non-live stream created with explicit bounds, whose fetches all
succeed on the bounded range, yields exactly `end - start` records, the
record at position `i` being the one for slot `start + i`, in that exact
order, for every interleaving of completion-triggered replenishments, and
the iteration then ends cleanly. -/
theorem claim_C1 (a b : Nat) (fo : Nat → FetchOutcome) (p : Nat → Nat)
    (tips : Nat → Nat) (sched : List Nat) (lw : Nat)
    (hab : a < b) (hfo : ∀ x, a ≤ x → x < b → fo x = .ok (p x)) :
    streamOut (mkCfg false true none) fo tips lw (b - a + 1) sched
        (openp tips (mkCfg false true none) (mkSt a (some b))) =
      ((List.range' a (b - a)).map (fun x => Item.blk ⟨x, p x⟩), .clean) :=
  streamOut_bounded (mkCfg false true none) rfl fo tips lw b p (b - a)
    (mkSt a (some b)) sched rfl (by show b = a + (b - a); omega)
    (fun x hx1 hx2 => hfo x hx1 hx2)

/-- A fetch oracle whose block payload equals the slot number. -/
def okFetch : Nat → FetchOutcome := fun s => .ok s

/-- Witness for C1: slots 100 to 102, with completion callbacks
interleaved. -/
theorem claim_C1_witness :
    streamOut (mkCfg false true none) okFetch tips0 0 4 [1, 0, 2]
        (openp tips0 (mkCfg false true none) (mkSt 100 (some 103))) =
      ((List.range' 100 3).map (fun x => Item.blk ⟨x, x⟩), .clean) :=
  claim_C1 100 103 okFetch (fun x => x) tips0 [1, 0, 2] 0 (by decide)
    (fun _ _ _ => rfl)

/-! ### The skip sentinel never matches a `Block not available` message -/

theorem notAvailable_no_skip (slot : Nat) :
    strIncludes (notAvailableMsg slot) SKIP_MSG = false := by
  cases hx : strIncludes (notAvailableMsg slot) SKIP_MSG with
  | false => rfl
  | true =>
    exfalso
    have hw := strIncludes_mem hx 'w' (by decide)
    unfold notAvailableMsg at hw
    rcases List.mem_append.mp hw with h | h
    · exact absurd h (by decide)
    · exact absurd (natChars_mem h) (by decide)

/-! ### Further projection lemmas and a live consuming pull -/

theorem applyPrefetchN_length (n : Nat) (cfg : StreamCfg) (s : StreamSt) :
    (applyPrefetchN n cfg s).length = s.length := by
  induction n generalizing s with
  | zero => rfl
  | succ k ih => rw [applyPrefetchN, ih, maybePrefetch_length]

theorem readpConsume_eta (cfg : StreamCfg) (fo : Nat → FetchOutcome) (s : StreamSt) :
    readpConsume cfg fo s = (consumeResult fo s.start, (readpConsume cfg fo s).2) := by
  rw [← readpConsume_fst]

theorem readp_live_consume (cfg : StreamCfg) (hlive : cfg.live = true)
    (fo : Nat → FetchOutcome) (tips : Nat → Nat) (lw : Nat) (s : StreamSt)
    (hle : s.start ≤ s.length) :
    readp cfg fo tips lw s = readpConsume cfg fo s := by
  have hlw : liveWaitT tips lw s.start s.length s.q = ([], some (s.length, s.q)) := by
    cases lw <;> simp [liveWaitT, hle]
  simp only [readp, hlive, if_true, hlw]
  simp [readpCore, effEnd, hlive]

/-! ### C7: missing-slot policy in live mode -/

/-- C7: for a live stream whose cursor has not passed the tip, a consumed
slot whose fetch failed with the skip-sentinel cause yields the missing
marker and the stream continues with the next slot, any other fetch
failure is raised and terminates the iteration, and a fetch that resolves
with an empty block is a hard `Block not available` failure (whose
message never matches the skip sentinel, so the missing-slot policy never
catches it). -/
theorem claim_C7 (snapOpt : Bool) (pfOpt : Option Nat) (fo : Nat → FetchOutcome)
    (tips : Nat → Nat) (lw fuel : Nat) (sched : List Nat) (s : StreamSt)
    (m : List Char) (hle : s.start ≤ s.length) :
    (fo s.start = .fail m → strIncludes m SKIP_MSG = true →
      ∃ s2, readp (mkCfg true snapOpt pfOpt) fo tips lw
          (applyPrefetchN (sched.headD 0) (mkCfg true snapOpt pfOpt) s) =
            (.missingMark, s2) ∧
        s2.start = s.start + 1 ∧
        streamOut (mkCfg true snapOpt pfOpt) fo tips lw (fuel + 1) sched s =
          (Item.missingMark ::
            (streamOut (mkCfg true snapOpt pfOpt) fo tips lw fuel sched.tail s2).1,
           (streamOut (mkCfg true snapOpt pfOpt) fo tips lw fuel sched.tail s2).2)) ∧
    (fo s.start = .fail m → strIncludes m SKIP_MSG = false →
      streamOut (mkCfg true snapOpt pfOpt) fo tips lw (fuel + 1) sched s =
        ([], .raised m)) ∧
    (fo s.start = .nullBlock →
      streamOut (mkCfg true snapOpt pfOpt) fo tips lw (fuel + 1) sched s =
        ([], .raised (notAvailableMsg s.start))) := by
  set cfg := mkCfg true snapOpt pfOpt with hcfg
  have hlive : cfg.live = true := rfl
  set s0 := applyPrefetchN (sched.headD 0) cfg s with hs0
  have h0s : s0.start = s.start := applyPrefetchN_start _ _ _
  have h0l : s0.length = s.length := applyPrefetchN_length _ _ _
  have hle0 : s0.start ≤ s0.length := by rw [h0s, h0l]; exact hle
  have hrp : readp cfg fo tips lw s0 =
      (consumeResult fo s.start, (readpConsume cfg fo s0).2) := by
    rw [readp_live_consume cfg hlive fo tips lw s0 hle0, readpConsume_eta, h0s]
  have h2s : (readpConsume cfg fo s0).2.start = s.start + 1 := by
    rw [readpConsume_start, h0s]
  refine ⟨?_, ?_, ?_⟩
  · intro hf hskip
    refine ⟨(readpConsume cfg fo s0).2, ?_, h2s, ?_⟩
    · rw [hrp]
      simp [consumeResult, hf, hskip]
    · have hm : consumeResult fo s.start = .missingMark := by
        simp [consumeResult, hf, hskip]
      rw [streamOut, ← hs0, hrp, hm]
  · intro hf hskip
    have hm : consumeResult fo s.start = .raise m := by
      simp [consumeResult, hf, hskip]
    rw [streamOut, ← hs0, hrp, hm]
  · intro hf
    have hm : consumeResult fo s.start = .raise (notAvailableMsg s.start) := by
      simp [consumeResult, hf, notAvailable_no_skip]
    rw [streamOut, ← hs0, hrp, hm]

/-- A fetch oracle failing with the skip cause at slot 101 only. -/
def skipFetch : Nat → FetchOutcome :=
  fun s => if s = 101 then .fail SKIP_MSG else .ok s

/-- Witness for C7: a live stream at slot 101, whose fetch fails with the
skip cause, yields the missing marker and continues at slot 102. -/
theorem claim_C7_witness :
    ∃ s2, readp (mkCfg true true none) skipFetch tips0 0
        (applyPrefetchN 0 (mkCfg true true none) ⟨101, none, 150, [], 0⟩) =
          (.missingMark, s2) ∧
      s2.start = 101 + 1 ∧
      streamOut (mkCfg true true none) skipFetch tips0 0 (3 + 1) [] ⟨101, none, 150, [], 0⟩ =
        (Item.missingMark ::
          (streamOut (mkCfg true true none) skipFetch tips0 0 3 [] s2).1,
         (streamOut (mkCfg true true none) skipFetch tips0 0 3 [] s2).2) :=
  (claim_C7 true none skipFetch tips0 0 3 [] ⟨101, none, 150, [], 0⟩ SKIP_MSG
    (by decide)).1 rfl (by decide)

/-! ### C9: the sentinel substitution applies in every mode -/

/-- C9: for every construction (live or not, any snapshot flag, any window
size, any `getBlock` hook), a consuming pull whose slot fetch fails with
a message containing the skip sentinel yields the missing marker and
advances the cursor; no constructor option disables the substitution. -/
theorem claim_C9 (liveOpt snapOpt : Bool) (pfOpt : Option Nat)
    (hook : Nat → HookOutcome) (rpc : Nat → FetchOutcome) (tips : Nat → Nat)
    (lw : Nat) (s : StreamSt) (m : List Char)
    (hm : strIncludes m SKIP_MSG = true)
    (hf : fetchSlot hook rpc s.start = .fail m)
    (hlive : liveOpt = true → s.start ≤ s.length)
    (hnl : liveOpt = false → s.start < pullBound s) :
    (readp (mkCfg liveOpt snapOpt pfOpt) (fetchSlot hook rpc) tips lw s).1 =
      .missingMark ∧
    (readp (mkCfg liveOpt snapOpt pfOpt) (fetchSlot hook rpc) tips lw s).2.start =
      s.start + 1 := by
  have hcons : readp (mkCfg liveOpt snapOpt pfOpt) (fetchSlot hook rpc) tips lw s =
      readpConsume (mkCfg liveOpt snapOpt pfOpt) (fetchSlot hook rpc) s := by
    cases liveOpt with
    | true =>
      exact readp_live_consume _ rfl _ tips lw s (hlive rfl)
    | false =>
      rw [readp_nonlive _ rfl, readpCore_consume _ rfl _ s (hnl rfl)]
  rw [hcons, readpConsume_eta]
  constructor
  · simp [consumeResult, hf, hm]
  · exact readpConsume_start _ _ _

/-- A `getBlock` hook that always rejects with the skip cause. -/
def skipHook : Nat → HookOutcome := fun _ => .failed SKIP_MSG

/-- Witness for C9: a non-live bounded stream also substitutes the missing
marker for a skip-cause failure raised by the `getBlock` hook. -/
theorem claim_C9_witness :
    (readp (mkCfg false true none) (fetchSlot skipHook okFetch) tips0 0
        ⟨7, some 10, 0, [], 0⟩).1 = .missingMark ∧
    (readp (mkCfg false true none) (fetchSlot skipHook okFetch) tips0 0
        ⟨7, some 10, 0, [], 0⟩).2.start = 7 + 1 :=
  claim_C9 false true none skipHook okFetch tips0 0 ⟨7, some 10, 0, [], 0⟩
    SKIP_MSG (by decide) rfl (by decide) (fun _ => by decide)

/-! ### C2: the inflight cache invariant -/

theorem mem_addIfMissing (acc : List Nat) (a x : Nat) :
    x ∈ addIfMissing acc a ↔ x ∈ acc ∨ x = a := by
  unfold addIfMissing
  split
  · rename_i h
    constructor
    · exact Or.inl
    · rintro (hx | rfl)
      · exact hx
      · exact h
  · simp

theorem nodup_addIfMissing (acc : List Nat) (a : Nat) (h : acc.Nodup) :
    (addIfMissing acc a).Nodup := by
  unfold addIfMissing
  split
  · exact h
  · rename_i ha
    simp [List.nodup_append, h, ha]

theorem mem_foldl_addIfMissing (l : List Nat) :
    ∀ acc x, x ∈ l.foldl addIfMissing acc ↔ x ∈ acc ∨ x ∈ l := by
  induction l with
  | nil => simp
  | cons a t ih =>
    intro acc x
    rw [List.foldl_cons, ih, mem_addIfMissing]
    constructor
    · rintro ((hx | rfl) | hx)
      · exact Or.inl hx
      · exact Or.inr (List.mem_cons_self _ _)
      · exact Or.inr (List.mem_cons_of_mem _ hx)
    · rintro (hx | hx)
      · exact Or.inl (Or.inl hx)
      · rcases List.mem_cons.mp hx with rfl | hx
        · exact Or.inl (Or.inr rfl)
        · exact Or.inr hx

theorem nodup_foldl_addIfMissing (l : List Nat) :
    ∀ acc, acc.Nodup → (l.foldl addIfMissing acc).Nodup := by
  induction l with
  | nil => intro acc h; exact h
  | cons a t ih =>
    intro acc h
    rw [List.foldl_cons]
    exact ih _ (nodup_addIfMissing acc a h)

theorem mem_maybePrefetch (cfg : StreamCfg) (s : StreamSt) (x : Nat) :
    x ∈ (maybePrefetch cfg s).inflight ↔
      x ∈ s.inflight ∨
      (s.start ≤ x ∧ x < s.start + min (pullBound s) cfg.concurrency) := by
  show x ∈ (List.range' s.start (min (pullBound s) cfg.concurrency)).foldl
      addIfMissing s.inflight ↔ _
  rw [mem_foldl_addIfMissing, List.mem_range'_1]

theorem maybePrefetch_nodup (cfg : StreamCfg) (s : StreamSt)
    (h : s.inflight.Nodup) : (maybePrefetch cfg s).inflight.Nodup :=
  nodup_foldl_addIfMissing _ _ h

theorem maybePrefetch_start_mem (cfg : StreamCfg) (s : StreamSt)
    (h : 1 ≤ min (pullBound s) cfg.concurrency) :
    s.start ∈ (maybePrefetch cfg s).inflight := by
  rw [mem_maybePrefetch]
  exact Or.inr ⟨le_rfl, by omega⟩

theorem goodCache_maybePrefetch (cfg : StreamCfg) (s : StreamSt)
    (h : GoodCache cfg.concurrency s) :
    GoodCache cfg.concurrency (maybePrefetch cfg s) := by
  obtain ⟨hnd, hbd⟩ := h
  refine ⟨maybePrefetch_nodup cfg s hnd, ?_⟩
  intro x hx
  rw [mem_maybePrefetch] at hx
  rw [maybePrefetch_start]
  rcases hx with hx | hx
  · exact hbd x hx
  · have : min (pullBound s) cfg.concurrency ≤ cfg.concurrency := min_le_right _ _
    omega

theorem readpConsume_cache (cfg : StreamCfg) (fo : Nat → FetchOutcome)
    (s : StreamSt) (h : GoodCache cfg.concurrency s)
    (hmin : 1 ≤ min (pullBound s) cfg.concurrency) :
    s.start ∈ (maybePrefetch cfg s).inflight ∧
    (readpConsume cfg fo s).2.inflight =
      ((maybePrefetch cfg s).inflight).erase s.start ∧
    GoodCache cfg.concurrency (readpConsume cfg fo s).2 := by
  have hmem : s.start ∈ (maybePrefetch cfg s).inflight :=
    maybePrefetch_start_mem cfg s hmin
  have hnd : (maybePrefetch cfg s).inflight.Nodup :=
    maybePrefetch_nodup cfg s h.1
  have heq : (readpConsume cfg fo s).2.inflight =
      ((maybePrefetch cfg s).inflight).erase s.start := by
    show (consumeCache _ s.start).inflight = _
    unfold consumeCache
    rw [if_pos (by exact hmem)]
  refine ⟨hmem, heq, ?_, ?_⟩
  · rw [heq]
    exact hnd.erase _
  · intro x hx
    rw [heq, hnd.mem_erase_iff] at hx
    obtain ⟨hne, hx⟩ := hx
    have hb := (goodCache_maybePrefetch cfg s h).2 x hx
    rw [maybePrefetch_start] at hb
    rw [readpConsume_start]
    omega

theorem goodCache_readp (cfg : StreamCfg) (fo : Nat → FetchOutcome)
    (tips : Nat → Nat) (lw : Nat) (s : StreamSt)
    (hW : 1 ≤ cfg.concurrency)
    (h : GoodCache cfg.concurrency s)
    (hok : pullOkAt cfg tips lw s = true) :
    GoodCache cfg.concurrency (readp cfg fo tips lw s).2 := by
  cases hlive : cfg.live with
  | true =>
    rcases hlw : (liveWaitT tips lw s.start s.length s.q).2 with _ | ⟨len, q⟩
    · simp only [readp, hlive, if_true, hlw]
      exact h
    · have hmin : 1 ≤ min (pullBound { s with length := len, q := q }) cfg.concurrency := by
        have := hok
        simp only [pullOkAt, hlive, if_true, hlw, decide_eq_true_eq] at this
        exact this
      have hgood2 : GoodCache cfg.concurrency { s with length := len, q := q } := h
      simp only [readp, hlive, if_true, hlw]
      show GoodCache cfg.concurrency (readpCore cfg fo { s with length := len, q := q }).2
      have : readpCore cfg fo { s with length := len, q := q } =
          readpConsume cfg fo { s with length := len, q := q } := by
        simp [readpCore, effEnd, hlive]
      rw [this]
      exact (readpConsume_cache cfg fo _ hgood2 hmin).2.2
  | false =>
    rw [readp_nonlive cfg hlive]
    by_cases hse : pullBound s ≤ s.start
    · rw [readpCore_ended cfg hlive fo s hse]
      exact h
    · rw [readpCore_consume cfg hlive fo s (by omega)]
      exact (readpConsume_cache cfg fo s h (by omega)).2.2

theorem pullsOk_nonlive (cfg : StreamCfg) (fo : Nat → FetchOutcome)
    (tips : Nat → Nat) (lw : Nat) (hlive : cfg.live = false) :
    ∀ (tags : List STag) (s : StreamSt), pullsOk cfg fo tips lw tags s = true := by
  intro tags
  induction tags with
  | nil => intro s; rfl
  | cons t ts ih =>
    intro s
    cases t with
    | pf => exact ih (maybePrefetch cfg s)
    | pull =>
      show (pullOkAt cfg tips lw s && _) = true
      rw [Bool.and_eq_true]
      exact ⟨by simp [pullOkAt, hlive], ih _⟩

theorem goodCache_length (w : Nat) (s : StreamSt) (h : GoodCache w s) :
    s.inflight.length ≤ w := by
  obtain ⟨hnd, hbd⟩ := h
  have h1 : s.inflight.toFinset.card = s.inflight.length :=
    List.toFinset_card_of_nodup hnd
  have hsub : s.inflight.toFinset ⊆ (List.range' s.start w).toFinset := by
    intro x hx
    rw [List.mem_toFinset] at hx ⊢
    exact List.mem_range'_1.mpr (hbd x hx)
  have h2 := Finset.card_le_card hsub
  have h3 := List.toFinset_card_le (List.range' s.start w)
  have h4 : (List.range' s.start w).length = w := List.length_range' s.start 1 w
  omega

theorem runTags_good (cfg : StreamCfg) (fo : Nat → FetchOutcome)
    (tips : Nat → Nat) (lw : Nat) (hW : 1 ≤ cfg.concurrency) :
    ∀ (tags : List STag) (s : StreamSt), GoodCache cfg.concurrency s →
      pullsOk cfg fo tips lw tags s = true →
      GoodCache cfg.concurrency (runTags cfg fo tips lw tags s) := by
  intro tags
  induction tags with
  | nil => intro s h _; exact h
  | cons t ts ih =>
    intro s h hok
    cases t with
    | pf =>
      exact ih (maybePrefetch cfg s) (goodCache_maybePrefetch cfg s h) hok
    | pull =>
      have hok2 : (pullOkAt cfg tips lw s &&
          pullsOk cfg fo tips lw ts (readp cfg fo tips lw s).2) = true := hok
      rw [Bool.and_eq_true] at hok2
      exact ih _ (goodCache_readp cfg fo tips lw s hW h hok2.1) hok2.2

/-- Counterexample to C2 as stated: a stream constructed with
`live: true, end: 0, prefetch: 1` (window `W = 1`) never prefetches
(`min(end, W) = 0`), so each consumed slot's entry is inserted at
consumption and never removed: after two pulls the cache holds the two
consumed slots — 2 entries with `W = 1`, and entries for already-consumed
slots 0 and 1 remain although the cursor is already at 2. -/
theorem claim_C2_counterexample :
    (mkCfg true true (some 1)).concurrency = 1 ∧
    (runTags (mkCfg true true (some 1)) okFetch tips5 5 [.pull, .pull]
        (openp tips5 (mkCfg true true (some 1)) (mkSt 0 (some 0)))).inflight = [0, 1] ∧
    (runTags (mkCfg true true (some 1)) okFetch tips5 5 [.pull, .pull]
        (openp tips5 (mkCfg true true (some 1)) (mkSt 0 (some 0)))).start = 2 := by
  decide

/-- C2 as amended: in every run in which each consuming pull has a
positive prefetch limit `min(end-or-tip, W)` — which holds automatically
for every non-live stream — the cache is duplicate-free, stays inside the
window `[cursor, cursor + W)`, and so never holds more than `W` entries;
replenishment never removes entries, and a consuming pull removes exactly
the cursor slot's entry, which is present in the cache when consumed.
(A live stream with a zero effective limit, e.g. `live: true, end: 0`,
instead inserts the consumed slot at consumption and never removes it.) -/
theorem claim_C2_amended (cfg : StreamCfg) (fo : Nat → FetchOutcome)
    (tips : Nat → Nat) (lw : Nat) (tags : List STag) (s : StreamSt)
    (hW : 1 ≤ cfg.concurrency)
    (hgood : GoodCache cfg.concurrency s)
    (hok : cfg.live = false ∨ pullsOk cfg fo tips lw tags s = true) :
    GoodCache cfg.concurrency (runTags cfg fo tips lw tags s) ∧
    (runTags cfg fo tips lw tags s).inflight.length ≤ cfg.concurrency ∧
    (∀ x ∈ s.inflight, x ∈ (maybePrefetch cfg s).inflight) ∧
    (∀ t : StreamSt, GoodCache cfg.concurrency t →
      1 ≤ min (pullBound t) cfg.concurrency →
      t.start ∈ (maybePrefetch cfg t).inflight ∧
      (readpConsume cfg fo t).2.inflight =
        ((maybePrefetch cfg t).inflight).erase t.start) := by
  have hok2 : pullsOk cfg fo tips lw tags s = true := by
    rcases hok with hlive | hok
    · exact pullsOk_nonlive cfg fo tips lw hlive tags s
    · exact hok
  have hg := runTags_good cfg fo tips lw hW tags s hgood hok2
  refine ⟨hg, goodCache_length _ _ hg, ?_, ?_⟩
  · intro x hx
    rw [mem_maybePrefetch]
    exact Or.inl hx
  · intro t ht hmin
    have h := readpConsume_cache cfg fo t ht hmin
    exact ⟨h.1, h.2.1⟩

/-- Witness for C2 (amended): a non-live bounded stream with window 3,
run through a pull, a replenishment, and another pull. -/
theorem claim_C2_witness :
    GoodCache (mkCfg false true (some 3)).concurrency
      (runTags (mkCfg false true (some 3)) okFetch tips0 0 [.pull, .pf, .pull]
        (mkSt 0 (some 10))) ∧
    (runTags (mkCfg false true (some 3)) okFetch tips0 0 [.pull, .pf, .pull]
        (mkSt 0 (some 10))).inflight.length ≤ (mkCfg false true (some 3)).concurrency ∧
    (∀ x ∈ (mkSt 0 (some 10)).inflight,
      x ∈ (maybePrefetch (mkCfg false true (some 3)) (mkSt 0 (some 10))).inflight) ∧
    (∀ t : StreamSt, GoodCache (mkCfg false true (some 3)).concurrency t →
      1 ≤ min (pullBound t) (mkCfg false true (some 3)).concurrency →
      t.start ∈ (maybePrefetch (mkCfg false true (some 3)) t).inflight ∧
      (readpConsume (mkCfg false true (some 3)) okFetch t).2.inflight =
        ((maybePrefetch (mkCfg false true (some 3)) t).inflight).erase t.start) :=
  claim_C2_amended (mkCfg false true (some 3)) okFetch tips0 0 [.pull, .pf, .pull]
    (mkSt 0 (some 10)) (by decide) ⟨by simp [mkSt], by simp [mkSt]⟩ (Or.inl rfl)

/-! ### C8: unsubscribing -/

theorem mapGet_eq_some_mem {l : List (Nat × CB)} {id : Nat} {cb : CB}
    (h : mapGet l id = some cb) : (id, cb) ∈ l := by
  unfold mapGet at h
  cases hf : l.find? (fun p => p.1 == id) with
  | none => rw [hf] at h; cases h
  | some pr =>
    rw [hf] at h
    have hmem := List.mem_of_find?_eq_some hf
    have hkey0 := List.find?_some hf
    have h1 : pr.1 = id := by simpa using hkey0
    have h2 : pr.2 = cb := by simpa using h
    have : pr = (id, cb) := by
      cases pr
      simp_all
    rwa [this] at hmem

theorem mapGet_eq_none_iff {l : List (Nat × CB)} {id : Nat} :
    mapGet l id = none ↔ ∀ p ∈ l, p.1 ≠ id := by
  unfold mapGet
  cases hf : l.find? (fun p => p.1 == id) with
  | none =>
    rw [List.find?_eq_none] at hf
    constructor
    · intro _ p hp
      simpa using hf p hp
    · intro _; rfl
  | some pr =>
    have hmem := List.mem_of_find?_eq_some hf
    have hkey0 := List.find?_some hf
    have hkey : pr.1 = id := by simpa using hkey0
    constructor
    · intro h; exact absurd h (by simp)
    · intro hall; exact absurd hkey (hall pr hmem)

theorem mapDelete_keys {l : List (Nat × CB)} {id : Nat} :
    ∀ p ∈ mapDelete l id, p ∈ l ∧ p.1 ≠ id := by
  intro p hp
  unfold mapDelete at hp
  have hmem := List.mem_of_mem_filter hp
  have hpred := List.of_mem_filter hp
  refine ⟨hmem, ?_⟩
  simpa using hpred

theorem mapDelete_map_snd {l : List (Nat × CB)} {id : Nat} {cb : CB}
    (hkeys : (l.map Prod.fst).Nodup)
    (hid : ∀ p ∈ l, p.2.subId = p.1)
    (hmem : (id, cb) ∈ l) :
    (mapDelete l id).map Prod.snd = (l.map Prod.snd).erase cb := by
  induction l with
  | nil => cases hmem
  | cons p t ih =>
    by_cases hp : p.1 = id
    · have hnotin : id ∉ t.map Prod.fst := by
        rw [List.map_cons, List.nodup_cons] at hkeys
        rw [← hp]
        exact hkeys.1
      have hpcb : p = (id, cb) := by
        rcases List.mem_cons.mp hmem with h | h
        · exact h.symm
        · exfalso
          exact hnotin (List.mem_map.mpr ⟨(id, cb), h, rfl⟩)
      have hfil : mapDelete (p :: t) id = t := by
        unfold mapDelete
        rw [List.filter_cons]
        have : (p.1 != id) = false := by simp [hp]
        rw [this]
        simp only [Bool.false_eq_true, if_false]
        apply List.filter_eq_self.mpr
        intro q hq
        have : q.1 ≠ id := by
          intro hq1
          exact hnotin (List.mem_map.mpr ⟨q, hq, hq1⟩)
        simpa using this
      rw [hfil, hpcb]
      simp [List.erase_cons_head]
    · have hmem2 : (id, cb) ∈ t := by
        rcases List.mem_cons.mp hmem with h | h
        · exfalso; exact hp (by rw [← h])
        · exact h
      have hfil : mapDelete (p :: t) id = p :: mapDelete t id := by
        unfold mapDelete
        rw [List.filter_cons]
        have : (p.1 != id) = true := by simpa using hp
        rw [this]
        simp
      have hcbid : cb.subId = id := hid (id, cb) hmem
      have hpne : ¬ (p.2 == cb) = true := by
        simp only [beq_iff_eq]
        intro heq
        have := hid p (List.mem_cons_self p t)
        rw [heq, hcbid] at this
        exact hp this.symm
      rw [hfil, List.map_cons, List.map_cons, List.erase_cons_tail hpne]
      have hkeys2 : (t.map Prod.fst).Nodup := by
        rw [List.map_cons, List.nodup_cons] at hkeys
        exact hkeys.2
      rw [ih hkeys2 (fun q hq => hid q (List.mem_cons_of_mem p hq)) hmem2]

/-- C8: in a well-formed registry state (distinct subscription ids, the
socket listener list consisting exactly of the registered closures, each
closure filtering on its own id), unsubscribing a subscribed id removes
its closure from the registry and from the socket listeners — subsequent
matching account notifications deliver to nobody — and sends the
`accountUnsubscribe` request, preserving well-formedness; unsubscribing
an unknown id raises `Subscription not found` and leaves the registry,
the listeners and the sent log untouched. -/
theorem claim_C8 (st : SubState) (id : Nat) (cb : CB)
    (hkeys : (st.subs.map Prod.fst).Nodup)
    (hls : st.listeners = st.subs.map Prod.snd)
    (hid : ∀ p ∈ st.subs, p.2.subId = p.1) :
    (mapGet st.subs id = some cb →
      ∃ st2, accountUnsubscribe st id = (none, st2) ∧
        mapGet st2.subs id = none ∧
        cb ∉ st2.listeners ∧
        (∀ v, deliverTo st2.listeners (.accountNote id v) = []) ∧
        st2.sent = st.sent ++ [("accountUnsubscribe".toList, id)] ∧
        (st2.subs.map Prod.fst).Nodup ∧
        st2.listeners = st2.subs.map Prod.snd ∧
        (∀ p ∈ st2.subs, p.2.subId = p.1)) ∧
    (mapGet st.subs id = none →
      accountUnsubscribe st id =
        (some ("Subscription not found: ".toList ++ natChars id), st)) := by
  constructor
  · intro h
    have hmem : (id, cb) ∈ st.subs := mapGet_eq_some_mem h
    refine ⟨{ subs := mapDelete st.subs id
              listeners := removeListenerOnce st.listeners cb
              sent := st.sent ++ [("accountUnsubscribe".toList, id)] },
      by simp only [accountUnsubscribe, h], ?_, ?_, ?_, rfl, ?_, ?_, ?_⟩
    · exact mapGet_eq_none_iff.mpr (fun p hp => (mapDelete_keys p hp).2)
    · show cb ∉ removeListenerOnce st.listeners cb
      rw [removeListenerOnce, hls,
        ← mapDelete_map_snd hkeys hid hmem]
      intro hcb
      rcases List.mem_map.mp hcb with ⟨p, hp, hpc⟩
      have h1 := (mapDelete_keys p hp).2
      have h2 := hid p (mapDelete_keys p hp).1
      rw [hpc] at h2
      rw [hid (id, cb) hmem] at h2
      exact h1 h2.symm
    · intro v
      show deliverTo (removeListenerOnce st.listeners cb) _ = []
      rw [removeListenerOnce, hls, ← mapDelete_map_snd hkeys hid hmem]
      unfold deliverTo
      have hfil : ((mapDelete st.subs id).map Prod.snd).filter
          (fun c => c.subId == id) = [] := by
        rw [List.filter_eq_nil_iff]
        intro c hc
        rcases List.mem_map.mp hc with ⟨p, hp, hpc⟩
        have h1 := (mapDelete_keys p hp).2
        have h2 := hid p (mapDelete_keys p hp).1
        rw [hpc] at h2
        simp only [beq_iff_eq]
        intro hcid
        rw [hcid] at h2
        exact h1 h2.symm
      simp [hfil]
    · show ((mapDelete st.subs id).map Prod.fst).Nodup
      have hsub : List.Sublist (mapDelete st.subs id) st.subs :=
        List.filter_sublist st.subs
      exact hkeys.sublist (hsub.map Prod.fst)
    · show removeListenerOnce st.listeners cb = _
      rw [removeListenerOnce, hls, ← mapDelete_map_snd hkeys hid hmem]
    · intro p hp
      exact hid p (mapDelete_keys p hp).1
  · intro h
    simp only [accountUnsubscribe, h]

/-- A concrete registry with two subscriptions. -/
def twoSubs : SubState :=
  onAccountChange (onAccountChange ⟨[], [], []⟩ 1 10) 2 20

/-- Witness for C8: unsubscribing id 1 from a two-subscription registry. -/
theorem claim_C8_witness :
    (mapGet twoSubs.subs 1 = some ⟨1, 10⟩ →
      ∃ st2, accountUnsubscribe twoSubs 1 = (none, st2) ∧
        mapGet st2.subs 1 = none ∧
        (⟨1, 10⟩ : CB) ∉ st2.listeners ∧
        (∀ v, deliverTo st2.listeners (.accountNote 1 v) = []) ∧
        st2.sent = twoSubs.sent ++ [("accountUnsubscribe".toList, 1)] ∧
        (st2.subs.map Prod.fst).Nodup ∧
        st2.listeners = st2.subs.map Prod.snd ∧
        (∀ p ∈ st2.subs, p.2.subId = p.1)) ∧
    (mapGet twoSubs.subs 1 = none →
      accountUnsubscribe twoSubs 1 =
        (some ("Subscription not found: ".toList ++ natChars 1), twoSubs)) :=
  claim_C8 twoSubs 1 ⟨1, 10⟩ (by decide) (by decide) (by decide)

end SolanaRpc
